import Mathlib

/-!
Shallow embedding of srt_verify.py (an SRT subtitle parser/validator/repairer)
and verification of the specification's claims about it.

Python strings are modelled as Lean String values; the handful of Python
string/int primitives the program uses (str.strip, str.split, substring
containment, str.replace, str.ljust, int(), int(float()), repr, f-string
zero-padded formatting) are embedded below, operating on the underlying
character lists.  Python's unbounded int is modelled as Int; Python floor
division // and floor modulo % are Int.fdiv and Int.fmod.  Fallible Python
code (raise) is modelled with Except over an error type distinguishing
ValueError (with its message), IndexError, TypeError and AttributeError.
Recursive loops whose index arithmetic Python expresses with a while loop
are written with an explicit fuel argument equal to the number of input
lines; every iteration consumes at least one line, so the fuel never runs
out for the top-level call.
-/

/-- Python errors that the embedded code can raise. -/
inductive PyErr where
  | valueError (msg : String)
  | indexError
  | typeError
  | attributeError
deriving DecidableEq

deriving instance DecidableEq for Except

/-- The whitespace characters stripped by Python's str.strip
(space, tab, newline, carriage return, vertical tab, form feed;
the ASCII core of Python's notion of whitespace). -/
def wsChar (c : Char) : Bool :=
  c = ' ' || c = '\t' || c = '\n' || c = '\r' || c = Char.ofNat 11 || c = Char.ofNat 12

/-- Strip leading and trailing whitespace from a character list (str.strip). -/
def stripChars (s : List Char) : List Char :=
  ((s.dropWhile wsChar).reverse.dropWhile wsChar).reverse

/-- Python str.strip(). -/
def pyStrip (s : String) : String := ⟨stripChars s.data⟩

/-- Is needle a prefix of hay (on character lists)? -/
def isPrefixOfL : List Char → List Char → Bool
  | [], _ => true
  | _ :: _, [] => false
  | a :: as, b :: bs => a = b && isPrefixOfL as bs

/-- Substring containment on character lists (Python: needle in hay). -/
def containsL (needle : List Char) : List Char → Bool
  | [] => isPrefixOfL needle []
  | c :: rest => isPrefixOfL needle (c :: rest) || containsL needle rest

/-- Python: needle in hay, for strings. -/
def containsSub (needle hay : String) : Bool := containsL needle.data hay.data

/-- Split a character list on a single separator character
(Python str.split(sep) for a one-character sep). -/
def splitChL (sep : Char) : List Char → List (List Char)
  | [] => [[]]
  | c :: rest =>
    match splitChL sep rest with
    | [] => [[]]
    | h :: t => if c = sep then [] :: h :: t else (c :: h) :: t

/-- Python str.split(sep) for a one-character separator. -/
def splitc (sep : Char) (s : String) : List String :=
  (splitChL sep s.data).map fun l => ⟨l⟩

/-- Split on a (non-empty) separator substring, fuel-driven
(Python str.split(sep)).  Fuel at least the length of the input makes the
fuel-exhaustion branch unreachable. -/
def splitSubFuel (sep : List Char) : Nat → List Char → List (List Char)
  | _, [] => [[]]
  | 0, s => [s]
  | fuel + 1, c :: rest =>
    if isPrefixOfL sep (c :: rest) && !sep.isEmpty then
      [] :: splitSubFuel sep fuel (rest.drop (sep.length - 1))
    else
      match splitSubFuel sep fuel rest with
      | [] => [[c]]
      | h :: t => (c :: h) :: t

/-- Python str.split(sep) for a multi-character separator. -/
def splitSub (sep s : String) : List String :=
  (splitSubFuel sep.data s.data.length s.data).map fun l => ⟨l⟩

/-- Replace every (leftmost, non-overlapping) occurrence of old by new,
fuel-driven (Python str.replace). -/
def replaceFuel (old new : List Char) : Nat → List Char → List Char
  | _, [] => []
  | 0, s => s
  | fuel + 1, c :: rest =>
    if isPrefixOfL old (c :: rest) && !old.isEmpty then
      new ++ replaceFuel old new fuel (rest.drop (old.length - 1))
    else
      c :: replaceFuel old new fuel rest

/-- Python str.replace(old, new). -/
def pyReplace (old new s : String) : String :=
  ⟨replaceFuel old.data new.data s.data.length s.data⟩

/-- Python str.ljust(w, fill). -/
def ljustL (s : List Char) (w : Nat) (fill : Char) : List Char :=
  s ++ List.replicate (w - s.length) fill

/-- The decimal digit characters. -/
def digitChar : Nat → Char
  | 0 => '0' | 1 => '1' | 2 => '2' | 3 => '3' | 4 => '4'
  | 5 => '5' | 6 => '6' | 7 => '7' | 8 => '8' | _ => '9'

/-- Value of a decimal digit character, none for a non-digit. -/
def digVal (c : Char) : Option Nat :=
  if c = '0' then some 0 else if c = '1' then some 1 else if c = '2' then some 2
  else if c = '3' then some 3 else if c = '4' then some 4 else if c = '5' then some 5
  else if c = '6' then some 6 else if c = '7' then some 7 else if c = '8' then some 8
  else if c = '9' then some 9 else none

/-- Accumulating decimal evaluation of a digit string; none on a non-digit. -/
def digitsValAux (acc : Nat) : List Char → Option Nat
  | [] => some acc
  | c :: cs =>
    match digVal c with
    | none => none
    | some d => digitsValAux (acc * 10 + d) cs

/-- Decimal value of a non-empty all-digit character list, none otherwise. -/
def digitsVal : List Char → Option Nat
  | [] => none
  | c :: cs => digitsValAux 0 (c :: cs)

/-- Decimal digit characters of n, most significant first, fuel-driven
(fuel > n always suffices). -/
def natToCharsAux : Nat → Nat → List Char
  | 0, _ => []
  | fuel + 1, n =>
    if n < 10 then [digitChar n]
    else natToCharsAux fuel (n / 10) ++ [digitChar (n % 10)]

/-- Decimal digit characters of a natural number, most significant first. -/
def natToChars (n : Nat) : List Char := natToCharsAux (n + 1) n

/-- Decimal rendering of a natural number (Python str for a non-negative int). -/
def natStr (n : Nat) : String := ⟨natToChars n⟩

/-- Decimal rendering of an integer (Python str(int)). -/
def intStr (n : Int) : String :=
  if n < 0 then ⟨'-' :: natToChars (-n).toNat⟩ else ⟨natToChars n.toNat⟩

/-- Python int(s): strip, optional sign, non-empty digit run.
(Python additionally accepts underscore digit grouping and non-ASCII
digits; those forms never arise from the rendering side of this program.) -/
def pyInt (s : String) : Option Int :=
  let t := stripChars s.data
  match t with
  | [] => none
  | c :: rest =>
    if c = '-' then (digitsVal rest).map fun n => -(n : Int)
    else if c = '+' then (digitsVal rest).map fun n => (n : Int)
    else (digitsVal (c :: rest)).map fun n => (n : Int)

/-- Python int(float(s)) for a plain decimal literal: strip, optional sign,
digits with an optional single point, truncated toward zero.
(Exponent, infinity and nan forms of float() are not modelled; the program
only reaches this on a seconds field written without a comma.) -/
def pyIntOfFloat (s : String) : Option Int :=
  let t := stripChars s.data
  let su : Bool × List Char :=
    match t with
    | c :: rest => if c = '-' then (true, rest) else if c = '+' then (false, rest) else (false, t)
    | [] => (false, t)
  match splitChL '.' su.2 with
  | [a] => (digitsVal a).map fun n => if su.1 then -(n : Int) else (n : Int)
  | [a, b] =>
    if a.isEmpty && b.isEmpty then none
    else
      match digitsValAux 0 a, digitsValAux 0 b with
      | some n, some _ => some (if su.1 then -(n : Int) else (n : Int))
      | _, _ => none
  | _ => none

/-- Python repr of a string: quoted, with backslash, quote, newline, carriage
return and tab escaped.  The quote is a single quote unless the string
contains one and no double quote.  Non-printable escapes beyond these are
not modelled; no claim exercises them. -/
def pyRepr (s : String) : String :=
  let sq : Char := Char.ofNat 39
  let q : Char := if s.data.contains sq && !(s.data.contains '"') then '"' else sq
  let esc : Char → List Char := fun c =>
    if c = '\\' then ['\\', '\\']
    else if c = q then ['\\', q]
    else if c = '\n' then ['\\', 'n']
    else if c = '\r' then ['\\', 'r']
    else if c = '\t' then ['\\', 't']
    else [c]
  ⟨q :: (s.data.foldr (fun c acc => esc c ++ acc) [q])⟩

/-- Zero-padded left fill with '0' to width w. -/
def padZeros (w : Nat) (ds : List Char) : List Char :=
  List.replicate (w - ds.length) '0' ++ ds

/-- Python f-string {x:0Nw} formatting of an int: zero-padded to width w,
the sign counting toward the width. -/
def zfillL (w : Nat) (n : Int) : List Char :=
  if n < 0 then '-' :: padZeros (w - 1) (natToChars (-n).toNat)
  else padZeros w (natToChars n.toNat)

/-! ## SRTTime: the timestamp class -/

/-- SRTTime: a timestamp with hours, minutes, seconds, milliseconds fields,
each a Python int (not normalized, not range-checked). -/
structure SRTTime where
  hours : Int
  minutes : Int
  seconds : Int
  milliseconds : Int
deriving DecidableEq

/-- SRTTime.__lt__: Python tuple comparison of
(hours, minutes, seconds, milliseconds), i.e. lexicographic. -/
def SRTTime.lt (a b : SRTTime) : Bool :=
  if a.hours ≠ b.hours then a.hours < b.hours
  else if a.minutes ≠ b.minutes then a.minutes < b.minutes
  else if a.seconds ≠ b.seconds then a.seconds < b.seconds
  else a.milliseconds < b.milliseconds

/-- functools.total_ordering derives __ge__ from __lt__ as its negation. -/
def SRTTime.ge (a b : SRTTime) : Bool := !(SRTTime.lt a b)

/-- SRTTime.__str__: zero-padded HH:MM:SS,mmm (2/2/2/3 digits minimum). -/
def SRTTime.render (t : SRTTime) : String :=
  ⟨zfillL 2 t.hours ++ ':' :: zfillL 2 t.minutes ++ ':' :: zfillL 2 t.seconds
    ++ ',' :: zfillL 3 t.milliseconds⟩

/-- Total milliseconds of a timestamp as computed inside SRTTime.average. -/
def SRTTime.totalMs (t : SRTTime) : Int :=
  t.hours * 3600000 + t.minutes * 60000 + t.seconds * 1000 + t.milliseconds

/-- SRTTime.average: floor-division midpoint of the two total-millisecond
counts, decomposed back into fields by successive floor division/modulo. -/
def SRTTime.average (a b : SRTTime) : SRTTime :=
  let avg_ms := Int.fdiv (a.totalMs + b.totalMs) 2
  let hours := Int.fdiv avg_ms 3600000
  let avg1 := Int.fmod avg_ms 3600000
  let minutes := Int.fdiv avg1 60000
  let avg2 := Int.fmod avg1 60000
  let seconds := Int.fdiv avg2 1000
  let milliseconds := Int.fmod avg2 1000
  ⟨hours, minutes, seconds, milliseconds⟩

/-- SRTTime.parse: split on colons into exactly three parts; the seconds part
splits on a comma; a two-piece seconds part parses seconds and a millisecond
field right-padded with zeros to three characters then truncated to three;
otherwise the seconds piece is parsed as a float and truncated, with zero
milliseconds.  int()/float() failures raise ValueError, as does a colon
count other than three. -/
def SRTTime.parse (time_str : String) : Except PyErr SRTTime :=
  let parts := splitc ':' time_str
  if parts.length ≠ 3 then
    .error (.valueError (("Invalid time format: ") ++ time_str))
  else
    match pyInt (parts.getD 0 ("")) with
    | none => .error (.valueError (("invalid literal for int() with base 10: ") ++ pyRepr (parts.getD 0 (""))))
    | some hours =>
      match pyInt (parts.getD 1 ("")) with
      | none => .error (.valueError (("invalid literal for int() with base 10: ") ++ pyRepr (parts.getD 1 (""))))
      | some minutes =>
        let sec_parts := splitc ',' (parts.getD 2 (""))
        if sec_parts.length = 2 then
          match pyInt (sec_parts.getD 0 ("")) with
          | none => .error (.valueError (("invalid literal for int() with base 10: ") ++ pyRepr (sec_parts.getD 0 (""))))
          | some seconds =>
            let msStr : String := ⟨(ljustL (sec_parts.getD 1 ("")).data 3 '0').take 3⟩
            match pyInt msStr with
            | none => .error (.valueError (("invalid literal for int() with base 10: ") ++ pyRepr msStr))
            | some milliseconds => .ok ⟨hours, minutes, seconds, milliseconds⟩
        else
          match pyIntOfFloat (sec_parts.getD 0 ("")) with
          | none => .error (.valueError (("could not convert string to float: ") ++ pyRepr (sec_parts.getD 0 (""))))
          | some seconds => .ok ⟨hours, minutes, seconds, 0⟩

/-! ## SRTEntry and SRTFile -/

/-- SRTEntry: one subtitle block.  The two timestamps are Optional in the
Python type system (the validator's missing-time check guards a None there),
so they are modelled as Option SRTTime; the parser always produces both. -/
structure SRTEntry where
  id : Int
  start_time : Option SRTTime
  end_time : Option SRTTime
  text : List String
  line_number : Option Nat
deriving DecidableEq

/-- SRTFile: the parsed document, an ordered entry list plus parse warnings. -/
structure SRTFile where
  entries : List SRTEntry
  warnings : List String
deriving DecidableEq

/-- Python str(x) for an Optional line number (str(None) is "None"). -/
def lineStr : Option Nat → String
  | none => ("None")
  | some n => natStr n

/-! ## The parser (SRTFile.parse) -/

/-- The text-line loop of SRTFile.parse: consume stripped non-blank lines
from position ls (absolute index i, 1-based line numbers i+1), refusing the
ASCII arrow token anywhere in a text line; returns the collected text and
the number of lines consumed.  Stops (without consuming) at a blank line or
end of input. -/
def textLoop : List String → Nat → Except PyErr (List String × Nat)
  | [], _ => .ok ([], 0)
  | raw :: rest, i =>
    let l := pyStrip raw
    if l = ("") then .ok ([], 0)
    else if containsSub ("-->") l then
      .error (.valueError (("Unexpected time range in text at line ") ++ natStr (i + 1)
        ++ (", got: ") ++ pyRepr raw))
    else
      match textLoop rest (i + 1) with
      | .error e => .error e
      | .ok (ts, d) => .ok (l :: ts, d + 1)

/-- The main while loop of SRTFile.parse.  Arguments: fuel (the number of
remaining input lines at the top-level call; every iteration consumes at
least one line, so the fuel-exhaustion branch is unreachable from the
top-level call), the remaining lines, the absolute index of the first of
them, the next sequential id, and the accumulated entries and warnings. -/
def parseLoop (renumber fix_errors : Bool) :
    Nat → List String → Nat → Nat → List SRTEntry → List String →
    Except PyErr (List SRTEntry × List String)
  | _, [], _, _, entries, warnings => .ok (entries, warnings)
  | 0, _ :: _, _, _, entries, warnings => .ok (entries, warnings)
  | fuel + 1, raw :: rest, i, new_id, entries, warnings =>
    let l := pyStrip raw
    if l = ("") then
      parseLoop renumber fix_errors fuel rest (i + 1) new_id entries warnings
    else
      let line_number := i + 1
      -- Parse the entry ID line.  idStep yields the id, how many lines the
      -- ID step consumed (0 when the arrow is already on this line), the
      -- next sequential id, and the warnings.
      let idStep : Except PyErr (Int × Nat × Nat × List String) :=
        if containsSub ("-->") l || containsSub ("→") l then
          if !fix_errors then
            .error (.valueError (("Expected integer entry ID at line ") ++ natStr line_number
              ++ (", got: ") ++ pyRepr raw))
          else if renumber then
            .ok ((new_id : Int), 0, new_id + 1,
              warnings ++ [("Missing entry ID at line ") ++ natStr line_number
                ++ ("; assigned new ID ") ++ intStr (new_id : Int) ++ (".")])
          else
            .error (.valueError (("Expected integer entry ID at line ") ++ natStr line_number
              ++ ("; must turn on renumbering to fix this error.")))
        else
          match pyInt raw with
          | none =>
            .error (.valueError (("Expected integer entry ID at line ") ++ natStr (i + 1)
              ++ (", got: ") ++ pyRepr raw))
          | some v =>
            if renumber then .ok ((new_id : Int), 1, new_id + 1, warnings)
            else .ok (v, 1, new_id, warnings)
      match idStep with
      | .error e => .error e
      | .ok (id, adv, new_id1, warnings1) =>
        -- Parse the time range (the same line when adv = 0, the next one
        -- when adv = 1; an exhausted input raises IndexError here).
        let timeLine : Except PyErr (String × List String × Nat) :=
          if adv = 0 then .ok (raw, rest, i)
          else
            match rest with
            | [] => .error .indexError
            | raw2 :: rest2 => .ok (raw2, rest2, i + 1)
        match timeLine with
        | .error e => .error e
        | .ok (raw2, after, j) =>
          let l2 := pyStrip raw2
          let timeStep : Except PyErr (String × List String) :=
            if !containsSub ("-->") l2 then
              if containsSub ("→") l2 && fix_errors then
                .ok (pyReplace ("→") ("-->") l2,
                  warnings1 ++ [("Replaced \x27→\x27 with \x27-->\x27 at line ") ++ natStr (j + 1) ++ (".")])
              else
                .error (.valueError (("Expected time range at line ") ++ natStr (j + 1)
                  ++ (", got: ") ++ pyRepr raw2))
            else .ok (l2, warnings1)
          match timeStep with
          | .error e => .error e
          | .ok (l3, warnings2) =>
            let time_range := splitSub (" --> ") l3
            match SRTTime.parse (pyStrip (time_range.getD 0 (""))) with
            | .error e => .error e
            | .ok start_time =>
              match time_range.get? 1 with
              | none => .error .indexError
              | some t1 =>
                match SRTTime.parse (pyStrip t1) with
                | .error e => .error e
                | .ok end_time =>
                  match textLoop after (j + 1) with
                  | .error e => .error e
                  | .ok (text, d) =>
                    parseLoop renumber fix_errors fuel (after.drop d) (j + 1 + d) new_id1
                      (entries ++ [⟨id, some start_time, some end_time, text, some line_number⟩])
                      warnings2

/-- SRTFile.parse: strip the content, split it into lines on newline, and run
the parse loop from line 0 with next sequential id 1. -/
def SRTFile.parse (srt_content : String) (renumber fix_errors : Bool) :
    Except PyErr SRTFile :=
  let lines := splitc '\n' (pyStrip srt_content)
  match parseLoop renumber fix_errors lines.length lines 0 1 [] [] with
  | .error e => .error e
  | .ok (es, ws) => .ok ⟨es, ws⟩

/-! ## The validator / repair engine (verify_srt) -/

/-- The "Entry {id} on line {line} has missing start or end time." finding. -/
def missingMsg (e : SRTEntry) : String :=
  ("Entry ") ++ intStr e.id ++ (" on line ") ++ lineStr e.line_number
    ++ (" has missing start or end time.")

/-- Python str for an Optional timestamp (str(None) is "None"). -/
def timeStr : Option SRTTime → String
  | none => ("None")
  | some t => t.render

/-- The "Entry {id} on line {line} has invalid time range: {start} - {end}."
finding. -/
def rangeMsg (e : SRTEntry) : String :=
  ("Entry ") ++ intStr e.id ++ (" on line ") ++ lineStr e.line_number
    ++ (" has invalid time range: ") ++ timeStr e.start_time ++ (" - ")
    ++ timeStr e.end_time ++ (".")

/-- The "Entry {id} on line {line} overlaps with entry {pid} on line {pline}."
finding. -/
def overlapMsg (e p : SRTEntry) : String :=
  ("Entry ") ++ intStr e.id ++ (" on line ") ++ lineStr e.line_number
    ++ (" overlaps with entry ") ++ intStr p.id ++ (" on line ")
    ++ lineStr p.line_number ++ (".")

/-- Python a >= b on Optional SRTTime operands.  SRTTime defines only __lt__
(plus functools.total_ordering), so a >= b is not (a < b) when both are
SRTTime objects; if exactly one operand is None the attempted __lt__ body
dereferences None's fields and raises AttributeError; None >= None raises
TypeError. -/
def pyGE : Option SRTTime → Option SRTTime → Except PyErr Bool
  | some a, some b => .ok (SRTTime.ge a b)
  | none, none => .error .typeError
  | _, _ => .error .attributeError

/-- Python a < b on Optional SRTTime operands (same error behavior). -/
def pyLT : Option SRTTime → Option SRTTime → Except PyErr Bool
  | some a, some b => .ok (SRTTime.lt a b)
  | none, none => .error .typeError
  | _, _ => .error .attributeError

/-- The per-entry loop of verify_srt.  The first argument is fix_errors, the
second the previous entry (in its current, possibly repaired state; it is
emitted to the output list when the loop moves past it), the third the
remaining entries.  Returns the collected error messages and the final
(possibly repaired) entry list; a raised comparison error aborts the walk
and discards the collected messages, as in Python. -/
def verifyLoop (fix_errors : Bool) : Option SRTEntry → List SRTEntry →
    Except PyErr (List String × List SRTEntry)
  | prev, [] => .ok ([], prev.toList)
  | prev, e :: rest =>
    let errs1 : List String :=
      if e.start_time.isNone || e.end_time.isNone then [missingMsg e] else []
    match pyGE e.start_time e.end_time with
    | .error err => .error err
    | .ok ge =>
      let errs2 : List String := errs1 ++ (if ge then [rangeMsg e] else [])
      match prev with
      | none =>
        match verifyLoop fix_errors (some e) rest with
        | .error err => .error err
        | .ok (errs, out) => .ok (errs2 ++ errs, out)
      | some p =>
        match pyLT e.start_time p.end_time with
        | .error err => .error err
        | .ok lt =>
          if lt then
            if fix_errors then
              match p.end_time, e.start_time with
              | some pe, some se =>
                let mid := pe.average se
                match verifyLoop fix_errors (some { e with start_time := some mid }) rest with
                | .error err => .error err
                | .ok (errs, out) =>
                  .ok (errs2 ++ errs, { p with end_time := some mid } :: out)
              | _, _ => .error .attributeError
            else
              match verifyLoop fix_errors (some e) rest with
              | .error err => .error err
              | .ok (errs, out) => .ok (errs2 ++ [overlapMsg e p] ++ errs, p :: out)
          else
            match verifyLoop fix_errors (some e) rest with
            | .error err => .error err
            | .ok (errs, out) => .ok (errs2 ++ errs, p :: out)

/-- verify_srt: walk the document's entries in order with no initial previous
entry.  The Python function mutates the entries in place and returns only the
error list; the model returns the error list together with the final state of
the entry list (the document's warnings are untouched). -/
def verify_srt (srt : SRTFile) (fix_errors : Bool) :
    Except PyErr (List String × SRTFile) :=
  match verifyLoop fix_errors none srt.entries with
  | .error err => .error err
  | .ok (errs, es) => .ok (errs, { srt with entries := es })

-- Concrete sanity checks of the embedding (kernel-evaluated).
example : SRTTime.parse ("00:00:04,000") = .ok ⟨0, 0, 4, 0⟩ := by decide
example : (SRTTime.mk 0 0 4 0).render = ("00:00:04,000") := by decide
example : SRTFile.parse ("1\n00:00:01,000 --> 00:00:02,000\nHello") false false
    = .ok ⟨[⟨1, some ⟨0, 0, 1, 0⟩, some ⟨0, 0, 2, 0⟩, [("Hello")], some 1⟩], []⟩ := by decide

/-! ## Python object semantics of SRTTime comparison operators

SRTTime defines __lt__ and is decorated with functools.total_ordering, but
defines no __eq__, so Python's == on two SRTTime objects falls back to
object identity.  total_ordering derives the other operators from __lt__
and that (identity) equality.  Object identity is modelled by tagging each
object with a numeric identity. -/

/-- A Python SRTTime object: an object identity plus the field values. -/
structure SRTTimeObj where
  oid : Nat
  val : SRTTime
deriving DecidableEq

/-- Python == on two SRTTime objects: object.__eq__, i.e. identity,
because the class defines no __eq__. -/
def objEq (a b : SRTTimeObj) : Bool := a.oid = b.oid

/-- Python < on two SRTTime objects: the class's __lt__ (tuple comparison). -/
def objLt (a b : SRTTimeObj) : Bool := SRTTime.lt a.val b.val

/-- Python > as derived by functools.total_ordering from __lt__:
not (a < b) and a != b. -/
def objGt (a b : SRTTimeObj) : Bool := !objLt a b && !objEq a b

/-- Python <= as derived by functools.total_ordering from __lt__:
a < b or a == b. -/
def objLe (a b : SRTTimeObj) : Bool := objLt a b || objEq a b

/-- Python >= as derived by functools.total_ordering from __lt__:
not (a < b). -/
def objGe (a b : SRTTimeObj) : Bool := !objLt a b

/-! ## Spec-side validator findings (for the refinement claims)

Modelled from the spec's section 4.3 wording: walk the entries in order
tracking the previous entry; for each entry emit the missing-time finding if
either timestamp is absent, the invalid-range finding if start >= end in the
timestamp total order, and (fix mode off) the overlap finding if the current
start is strictly less than the previous end; findings never abort. -/

/-- Spec: the missing-time finding of one entry. -/
def specMissing (e : SRTEntry) : List String :=
  if e.start_time.isNone || e.end_time.isNone then [missingMsg e] else []

/-- Spec: the invalid-range finding of one entry. -/
def specRange (e : SRTEntry) : List String :=
  match e.start_time, e.end_time with
  | some s, some en => if SRTTime.ge s en then [rangeMsg e] else []
  | _, _ => []

/-- Spec: the overlap finding of one entry against the previous one. -/
def specOverlap (prev : Option SRTEntry) (e : SRTEntry) : List String :=
  match prev with
  | none => []
  | some p =>
    match e.start_time, p.end_time with
    | some s, some pe => if SRTTime.lt s pe then [overlapMsg e p] else []
    | _, _ => []

/-- Spec: all findings of a validation walk without fix mode. -/
def specFindings : Option SRTEntry → List SRTEntry → List String
  | _, [] => []
  | prev, e :: rest =>
    specMissing e ++ specRange e ++ specOverlap prev e ++ specFindings (some e) rest

/-- No adjacent pair of entries overlaps (current start strictly before the
previous end, where both timestamps are present). -/
def overlapFree : List SRTEntry → Bool
  | p :: e :: rest =>
    (match e.start_time, p.end_time with
     | some s, some pe => !SRTTime.lt s pe
     | _, _ => true) && overlapFree (e :: rest)
  | _ => true

/-- Both timestamps of every entry are present. -/
def allTimed (es : List SRTEntry) : Prop :=
  ∀ e ∈ es, e.start_time.isSome ∧ e.end_time.isSome

/-! ## Theorems -/

/-- The timestamp produced by SRTTime.average carries exactly the
floor-division midpoint of the two operands' total-millisecond counts. -/
theorem average_totalMs (a b : SRTTime) :
    (a.average b).totalMs = Int.fdiv (a.totalMs + b.totalMs) 2 := by
  have h1 := Int.fmod_add_fdiv (Int.fdiv (a.totalMs + b.totalMs) 2) 3600000
  have h2 := Int.fmod_add_fdiv (Int.fmod (Int.fdiv (a.totalMs + b.totalMs) 2) 3600000) 60000
  have h3 := Int.fmod_add_fdiv
    (Int.fmod (Int.fmod (Int.fdiv (a.totalMs + b.totalMs) 2) 3600000) 60000) 1000
  simp only [SRTTime.average, SRTTime.totalMs] at *
  omega

/-- C1: the claim states that timestamp equality is field-wise and the
ordering is a total order consistent with (h,m,s,ms) tuple comparison, all
operators derived from the one comparison.  The code defines __lt__ with
functools.total_ordering but no __eq__, so Python == on SRTTime objects is
object identity: two distinct objects carrying the identical field tuple
(0,0,0,0) compare unequal, and the derived > holds in both directions
between them, contradicting consistency with tuple comparison (which says
they are equal).  The class's own claim to handle comparison, and
total_ordering's documented reliance on __eq__, make this a code bug. -/
theorem srttime_equality_is_identity_code_bug :
    (SRTTimeObj.mk 0 ⟨0, 0, 0, 0⟩).val = (SRTTimeObj.mk 1 ⟨0, 0, 0, 0⟩).val ∧
    objEq (SRTTimeObj.mk 0 ⟨0, 0, 0, 0⟩) (SRTTimeObj.mk 1 ⟨0, 0, 0, 0⟩) = false ∧
    objLt (SRTTimeObj.mk 0 ⟨0, 0, 0, 0⟩) (SRTTimeObj.mk 1 ⟨0, 0, 0, 0⟩) = false ∧
    objLt (SRTTimeObj.mk 1 ⟨0, 0, 0, 0⟩) (SRTTimeObj.mk 0 ⟨0, 0, 0, 0⟩) = false ∧
    objGt (SRTTimeObj.mk 0 ⟨0, 0, 0, 0⟩) (SRTTimeObj.mk 1 ⟨0, 0, 0, 0⟩) = true ∧
    objGt (SRTTimeObj.mk 1 ⟨0, 0, 0, 0⟩) (SRTTimeObj.mk 0 ⟨0, 0, 0, 0⟩) = true ∧
    objLe (SRTTimeObj.mk 0 ⟨0, 0, 0, 0⟩) (SRTTimeObj.mk 1 ⟨0, 0, 0, 0⟩) = false := by
  decide

/-- C2: the claim states that for every input and flag combination, parse
either returns a complete document or raises exactly one descriptive error
whose message contains the offending 1-based line number.  The code instead
raises an uncaught IndexError (message "list index out of range", no line
number) whenever the input ends right after an entry-ID line: on input "1",
the ID line is consumed and lines[i] is read past the end of the line list.
This contradicts the function's own docstring, which documents ValueError
as the only raised error. -/
theorem parse_truncated_input_index_error :
    ∀ renumber fix_errors : Bool,
      SRTFile.parse ("1") renumber fix_errors = .error .indexError := by
  intro renumber fix_errors
  cases renumber <;> cases fix_errors <;> decide

/-- C4: the claim states that entries with an absent timestamp produce the
missing-time finding and that validation findings never abort the walk.
In the code the missing-time check does append its finding, but the very
next check evaluates start_time >= end_time, which on a None operand calls
SRTTime.__lt__ on None and raises AttributeError, aborting verify_srt and
discarding every collected finding — contradicting the docstring's promise
to return the list of error messages found. -/
theorem verify_missing_time_aborts :
    verify_srt ⟨[⟨1, none, some ⟨0, 0, 1, 0⟩, [], some 1⟩], []⟩ false
      = .error .attributeError ∧
    verify_srt ⟨[⟨1, none, some ⟨0, 0, 1, 0⟩, [], some 1⟩], []⟩ true
      = .error .attributeError ∧
    verify_srt ⟨[⟨1, some ⟨0, 0, 0, 0⟩, none, [], some 1⟩], []⟩ false
      = .error .attributeError ∧
    verify_srt ⟨[⟨1, none, none, [], some 1⟩], []⟩ false
      = .error .typeError := by
  refine ⟨by decide, by decide, by decide, by decide⟩

/-- C7: a line at the ID position containing an arrow token (ASCII "-->" or
Unicode "→"), at any position in any input and with any accumulated parser
state: under strict mode parse fails with the malformed-ID error for that
line; under fix mode without renumbering it fails with the message
instructing that renumbering must be enabled; under fix mode with
renumbering it assigns the next sequential id (new_id, advancing it to
new_id + 1), records exactly one warning "Missing entry ID at line N;
assigned new ID X." (plus, for the Unicode arrow, the replacement warning),
and does not advance past the line: the entry's timestamps are parsed from
that same line (after arrow replacement in the Unicode case) and its text
from the immediately following lines.  Concretely:
"00:00:01,000 --> 00:00:02,000\nHi" under fix+renumber succeeds with id 1
and exactly one warning and fails under strict mode (either renumber
setting) and under fix without renumbering; the Unicode variant succeeds
under fix+renumber with the two warnings and fails under strict mode; and a
second entry missing its ID is assigned the next sequential id 2. -/
theorem parse_missing_id_modes :
    (∀ (renumber : Bool) (fuel : Nat) (rest : List String) (i new_id : Nat)
        (entries : List SRTEntry) (warnings : List String) (raw : String),
      pyStrip raw ≠ ("") →
      (containsSub ("-->") (pyStrip raw) || containsSub ("→") (pyStrip raw)) = true →
      parseLoop renumber false (fuel + 1) (raw :: rest) i new_id entries warnings
        = .error (.valueError (("Expected integer entry ID at line ") ++ natStr (i + 1)
            ++ (", got: ") ++ pyRepr raw))) ∧
    (∀ (fuel : Nat) (rest : List String) (i new_id : Nat)
        (entries : List SRTEntry) (warnings : List String) (raw : String),
      pyStrip raw ≠ ("") →
      (containsSub ("-->") (pyStrip raw) || containsSub ("→") (pyStrip raw)) = true →
      parseLoop false true (fuel + 1) (raw :: rest) i new_id entries warnings
        = .error (.valueError (("Expected integer entry ID at line ") ++ natStr (i + 1)
            ++ ("; must turn on renumbering to fix this error.")))) ∧
    (∀ (fuel : Nat) (rest : List String) (i new_id : Nat) (entries : List SRTEntry)
        (warnings : List String) (raw s2 : String) (t1 t2 : SRTTime)
        (text : List String) (d : Nat),
      pyStrip raw ≠ ("") →
      containsSub ("-->") (pyStrip raw) = true →
      SRTTime.parse (pyStrip ((splitSub (" --> ") (pyStrip raw)).getD 0 (""))) = .ok t1 →
      (splitSub (" --> ") (pyStrip raw)).get? 1 = some s2 →
      SRTTime.parse (pyStrip s2) = .ok t2 →
      textLoop rest (i + 1) = .ok (text, d) →
      parseLoop true true (fuel + 1) (raw :: rest) i new_id entries warnings
        = parseLoop true true fuel (rest.drop d) (i + 1 + d) (new_id + 1)
            (entries ++ [⟨(new_id : Int), some t1, some t2, text, some (i + 1)⟩])
            (warnings ++ [("Missing entry ID at line ") ++ natStr (i + 1)
              ++ ("; assigned new ID ") ++ intStr (new_id : Int) ++ (".")])) ∧
    (∀ (fuel : Nat) (rest : List String) (i new_id : Nat) (entries : List SRTEntry)
        (warnings : List String) (raw s2 : String) (t1 t2 : SRTTime)
        (text : List String) (d : Nat),
      pyStrip raw ≠ ("") →
      containsSub ("-->") (pyStrip raw) = false →
      containsSub ("→") (pyStrip raw) = true →
      SRTTime.parse (pyStrip ((splitSub (" --> ")
        (pyReplace ("→") ("-->") (pyStrip raw))).getD 0 (""))) = .ok t1 →
      (splitSub (" --> ") (pyReplace ("→") ("-->") (pyStrip raw))).get? 1 = some s2 →
      SRTTime.parse (pyStrip s2) = .ok t2 →
      textLoop rest (i + 1) = .ok (text, d) →
      parseLoop true true (fuel + 1) (raw :: rest) i new_id entries warnings
        = parseLoop true true fuel (rest.drop d) (i + 1 + d) (new_id + 1)
            (entries ++ [⟨(new_id : Int), some t1, some t2, text, some (i + 1)⟩])
            ((warnings ++ [("Missing entry ID at line ") ++ natStr (i + 1)
               ++ ("; assigned new ID ") ++ intStr (new_id : Int) ++ (".")])
             ++ [("Replaced \x27→\x27 with \x27-->\x27 at line ") ++ natStr (i + 1) ++ (".")])) ∧
    SRTFile.parse ("00:00:01,000 --> 00:00:02,000\nHi") true true
      = .ok ⟨[⟨1, some ⟨0, 0, 1, 0⟩, some ⟨0, 0, 2, 0⟩, [("Hi")], some 1⟩],
             [("Missing entry ID at line 1; assigned new ID 1.")]⟩ ∧
    SRTFile.parse ("00:00:01,000 --> 00:00:02,000\nHi") false true
      = .error (.valueError
          ("Expected integer entry ID at line 1; must turn on renumbering to fix this error.")) ∧
    SRTFile.parse ("00:00:01,000 --> 00:00:02,000\nHi") false false
      = .error (.valueError
          ("Expected integer entry ID at line 1, got: \x2700:00:01,000 --> 00:00:02,000\x27")) ∧
    SRTFile.parse ("00:00:01,000 --> 00:00:02,000\nHi") true false
      = .error (.valueError
          ("Expected integer entry ID at line 1, got: \x2700:00:01,000 --> 00:00:02,000\x27")) ∧
    SRTFile.parse ("00:00:01,000 → 00:00:02,000\nHi") true true
      = .ok ⟨[⟨1, some ⟨0, 0, 1, 0⟩, some ⟨0, 0, 2, 0⟩, [("Hi")], some 1⟩],
             [("Missing entry ID at line 1; assigned new ID 1."),
              ("Replaced \x27→\x27 with \x27-->\x27 at line 1.")]⟩ ∧
    SRTFile.parse ("00:00:01,000 → 00:00:02,000\nHi") false false
      = .error (.valueError
          ("Expected integer entry ID at line 1, got: \x2700:00:01,000 → 00:00:02,000\x27")) ∧
    SRTFile.parse ("1\n00:00:01,000 --> 00:00:02,000\nHi\n\n00:00:03,000 --> 00:00:04,000\nYo")
        true true
      = .ok ⟨[⟨1, some ⟨0, 0, 1, 0⟩, some ⟨0, 0, 2, 0⟩, [("Hi")], some 1⟩,
              ⟨2, some ⟨0, 0, 3, 0⟩, some ⟨0, 0, 4, 0⟩, [("Yo")], some 5⟩],
             [("Missing entry ID at line 5; assigned new ID 2.")]⟩ := by
  refine ⟨?_, ?_, ?_, ?_, by decide, by decide, by decide, by decide, by decide, by decide,
    by decide⟩
  · intro renumber fuel rest i new_id entries warnings raw hne harrow
    simp [parseLoop, hne, harrow]
  · intro fuel rest i new_id entries warnings raw hne harrow
    simp [parseLoop, hne, harrow]
  · intro fuel rest i new_id entries warnings raw s2 t1 t2 text d hne hascii h1 hget h2 htext
    simp only [List.getD_eq_getElem?_getD, List.get?_eq_getElem?] at h1 hget
    simp [parseLoop, hne, hascii, h1, hget, h2, htext]
  · intro fuel rest i new_id entries warnings raw s2 t1 t2 text d hne hascii huni h1 hget h2 htext
    simp only [List.getD_eq_getElem?_getD, List.get?_eq_getElem?] at h1 hget
    simp [parseLoop, hne, hascii, huni, h1, hget, h2, htext]

/-- Witness for C7: the general strict-mode failure and the general
fix+renumber recovery step, each applied to the concrete missing-ID line
"00:00:01,000 --> 00:00:02,000" with next sequential id 1 (strict) and the
same line in a parser state whose next sequential id is 2 (recovery),
discharging every hypothesis by evaluation. -/
theorem parse_missing_id_modes_witness :
    parseLoop true false (0 + 1) [("00:00:01,000 --> 00:00:02,000"), ("Hi")] 0 1 [] []
      = .error (.valueError (("Expected integer entry ID at line ") ++ natStr (0 + 1)
          ++ (", got: ") ++ pyRepr ("00:00:01,000 --> 00:00:02,000"))) ∧
    parseLoop true true (0 + 1) [("00:00:01,000 --> 00:00:02,000"), ("Hi")] 4 2
        [⟨1, some ⟨0, 0, 0, 0⟩, some ⟨0, 0, 1, 0⟩, [], some 1⟩] []
      = parseLoop true true 0 ([("Hi")].drop 1) (4 + 1 + 1) (2 + 1)
          ([⟨1, some ⟨0, 0, 0, 0⟩, some ⟨0, 0, 1, 0⟩, [], some 1⟩]
            ++ [⟨((2 : Nat) : Int), some ⟨0, 0, 1, 0⟩, some ⟨0, 0, 2, 0⟩, [("Hi")], some (4 + 1)⟩])
          ([] ++ [("Missing entry ID at line ") ++ natStr (4 + 1)
            ++ ("; assigned new ID ") ++ intStr ((2 : Nat) : Int) ++ (".")]) :=
  ⟨parse_missing_id_modes.1 true 0 [("Hi")] 0 1 [] [] ("00:00:01,000 --> 00:00:02,000")
      (by decide) (by decide),
   parse_missing_id_modes.2.2.1 0 [("Hi")] 4 2
      [⟨1, some ⟨0, 0, 0, 0⟩, some ⟨0, 0, 1, 0⟩, [], some 1⟩] []
      ("00:00:01,000 --> 00:00:02,000") ("00:00:02,000") ⟨0, 0, 1, 0⟩ ⟨0, 0, 2, 0⟩ [("Hi")] 1
      (by decide) (by decide) (by decide) (by decide) (by decide) (by decide)⟩

/-- C8: a single validate-with-fix pass can create a residual defect that
re-validation surfaces: with entry 2's range nested inside entry 1's
(1: 00:00:00,000-00:00:10,000, 2: 00:00:02,000-00:00:03,000), the repair
midpoint 00:00:06,000 exceeds entry 2's end, so the fix pass (which itself
reports nothing) leaves entry 2 with the invalid range
00:00:06,000 - 00:00:03,000, and the subsequent validate call reports
exactly that invalid-range finding. -/
theorem verify_fix_residual_defect :
    verify_srt ⟨[⟨1, some ⟨0, 0, 0, 0⟩, some ⟨0, 0, 10, 0⟩, [], some 1⟩,
                 ⟨2, some ⟨0, 0, 2, 0⟩, some ⟨0, 0, 3, 0⟩, [], some 4⟩], []⟩ true
      = .ok ([], ⟨[⟨1, some ⟨0, 0, 0, 0⟩, some ⟨0, 0, 6, 0⟩, [], some 1⟩,
                   ⟨2, some ⟨0, 0, 6, 0⟩, some ⟨0, 0, 3, 0⟩, [], some 4⟩], []⟩) ∧
    verify_srt ⟨[⟨1, some ⟨0, 0, 0, 0⟩, some ⟨0, 0, 6, 0⟩, [], some 1⟩,
                 ⟨2, some ⟨0, 0, 6, 0⟩, some ⟨0, 0, 3, 0⟩, [], some 4⟩], []⟩ false
      = .ok ([("Entry 2 on line 4 has invalid time range: 00:00:06,000 - 00:00:03,000.")],
             ⟨[⟨1, some ⟨0, 0, 0, 0⟩, some ⟨0, 0, 6, 0⟩, [], some 1⟩,
               ⟨2, some ⟨0, 0, 6, 0⟩, some ⟨0, 0, 3, 0⟩, [], some 4⟩], []⟩) := by
  refine ⟨by decide, by decide⟩

/-- C3: with fix mode on and a previous entry whose end is strictly after the
current entry's start, the validator replaces both the previous end and the
current start by the floor-division total-millisecond midpoint, emits no
overlap finding for that occurrence (only the independent range findings can
appear), and the produced timestamp carries exactly the floor midpoint of
the two total-millisecond counts; concretely, for entries
1: 00:00:00,000-00:00:05,000 and 2: 00:00:03,000-00:00:08,000 both
boundaries become 00:00:04,000 and a re-validation pass reports nothing. -/
theorem verify_fix_overlap_midpoint :
    (∀ (e1 e2 : SRTEntry) (t1s t1e t2s t2e : SRTTime),
      e1.start_time = some t1s → e1.end_time = some t1e →
      e2.start_time = some t2s → e2.end_time = some t2e →
      SRTTime.lt t2s t1e = true →
      verifyLoop true none [e1, e2] =
        .ok ((if SRTTime.ge t1s t1e then [rangeMsg e1] else []) ++
             (if SRTTime.ge t2s t2e then [rangeMsg e2] else []),
          [{ e1 with end_time := some (t1e.average t2s) },
           { e2 with start_time := some (t1e.average t2s) }]) ∧
      (t1e.average t2s).totalMs = Int.fdiv (t1e.totalMs + t2s.totalMs) 2) ∧
    verify_srt ⟨[⟨1, some ⟨0, 0, 0, 0⟩, some ⟨0, 0, 5, 0⟩, [], some 1⟩,
                 ⟨2, some ⟨0, 0, 3, 0⟩, some ⟨0, 0, 8, 0⟩, [], some 4⟩], []⟩ true
      = .ok ([], ⟨[⟨1, some ⟨0, 0, 0, 0⟩, some ⟨0, 0, 4, 0⟩, [], some 1⟩,
                   ⟨2, some ⟨0, 0, 4, 0⟩, some ⟨0, 0, 8, 0⟩, [], some 4⟩], []⟩) ∧
    verify_srt ⟨[⟨1, some ⟨0, 0, 0, 0⟩, some ⟨0, 0, 4, 0⟩, [], some 1⟩,
                 ⟨2, some ⟨0, 0, 4, 0⟩, some ⟨0, 0, 8, 0⟩, [], some 4⟩], []⟩ false
      = .ok ([], ⟨[⟨1, some ⟨0, 0, 0, 0⟩, some ⟨0, 0, 4, 0⟩, [], some 1⟩,
                   ⟨2, some ⟨0, 0, 4, 0⟩, some ⟨0, 0, 8, 0⟩, [], some 4⟩], []⟩) := by
  refine ⟨?_, by decide, by decide⟩
  intro e1 e2 t1s t1e t2s t2e h1s h1e h2s h2e hlt
  refine ⟨?_, average_totalMs t1e t2s⟩
  simp [verifyLoop, pyGE, pyLT, h1s, h1e, h2s, h2e, hlt]

/-- Witness for C3: the general statement applied to the spec's concrete
overlapping pair. -/
theorem verify_fix_overlap_midpoint_witness :
    SRTTime.lt ⟨0, 0, 3, 0⟩ ⟨0, 0, 5, 0⟩ = true ∧
    (verifyLoop true none
        [⟨1, some ⟨0, 0, 0, 0⟩, some ⟨0, 0, 5, 0⟩, [], some 1⟩,
         ⟨2, some ⟨0, 0, 3, 0⟩, some ⟨0, 0, 8, 0⟩, [], some 4⟩] =
      .ok ((if SRTTime.ge ⟨0, 0, 0, 0⟩ ⟨0, 0, 5, 0⟩ then
              [rangeMsg ⟨1, some ⟨0, 0, 0, 0⟩, some ⟨0, 0, 5, 0⟩, [], some 1⟩] else []) ++
           (if SRTTime.ge ⟨0, 0, 3, 0⟩ ⟨0, 0, 8, 0⟩ then
              [rangeMsg ⟨2, some ⟨0, 0, 3, 0⟩, some ⟨0, 0, 8, 0⟩, [], some 4⟩] else []),
        [{ (⟨1, some ⟨0, 0, 0, 0⟩, some ⟨0, 0, 5, 0⟩, [], some 1⟩ : SRTEntry) with
             end_time := some (SRTTime.average ⟨0, 0, 5, 0⟩ ⟨0, 0, 3, 0⟩) },
         { (⟨2, some ⟨0, 0, 3, 0⟩, some ⟨0, 0, 8, 0⟩, [], some 4⟩ : SRTEntry) with
             start_time := some (SRTTime.average ⟨0, 0, 5, 0⟩ ⟨0, 0, 3, 0⟩) }]) ∧
     (SRTTime.average ⟨0, 0, 5, 0⟩ ⟨0, 0, 3, 0⟩).totalMs
       = Int.fdiv ((⟨0, 0, 5, 0⟩ : SRTTime).totalMs + (⟨0, 0, 3, 0⟩ : SRTTime).totalMs) 2) :=
  ⟨by decide, verify_fix_overlap_midpoint.1 _ _ _ _ _ _ rfl rfl rfl rfl (by decide)⟩

/-- Every validation walk without fix mode over fully-timed entries returns
exactly the spec's findings and the unchanged entry list. -/
theorem verifyLoop_nofix_spec (es : List SRTEntry) : ∀ (prev : Option SRTEntry),
    allTimed es →
    (∀ p, prev = some p → p.end_time.isSome) →
    verifyLoop false prev es = .ok (specFindings prev es, prev.toList ++ es) := by
  induction es with
  | nil =>
    intro prev _ _
    simp [verifyLoop, specFindings]
  | cons e rest ih =>
    intro prev hwf hp
    obtain ⟨hs0, he0⟩ := hwf e (by simp)
    obtain ⟨s, hs⟩ := Option.isSome_iff_exists.mp hs0
    obtain ⟨en, he⟩ := Option.isSome_iff_exists.mp he0
    have hwf' : allTimed rest := fun x hx => hwf x (by simp [hx])
    have hrec := ih (some e) hwf' (fun p hpeq => by cases hpeq; exact he0)
    cases prev with
    | none =>
      simp [verifyLoop, pyGE, hs, he, hrec, specFindings, specMissing, specRange, specOverlap]
    | some p =>
      obtain ⟨pe, hpe⟩ := Option.isSome_iff_exists.mp (hp p rfl)
      by_cases hlt : SRTTime.lt s pe = true
      · simp [verifyLoop, pyGE, pyLT, hs, he, hpe, hlt, hrec,
              specFindings, specMissing, specRange, specOverlap]
      · simp only [Bool.not_eq_true] at hlt
        simp [verifyLoop, pyGE, pyLT, hs, he, hpe, hlt, hrec,
              specFindings, specMissing, specRange, specOverlap]

/-- C5: with fix mode off, validate mutates nothing — for every document of
fully-timed entries the returned document is the input document, entry for
entry and in order — and the returned findings are exactly the spec's
findings: in particular, for each adjacent pair whose current start is
strictly less than the previous end, the overlap message for that pair, and
the walk continues to the end. -/
theorem verify_nofix_pure_and_spec_findings (es : List SRTEntry) (ws : List String)
    (h : allTimed es) :
    verify_srt ⟨es, ws⟩ false = .ok (specFindings none es, ⟨es, ws⟩) := by
  have hrun := verifyLoop_nofix_spec es none h (fun p hp => by cases hp)
  simp [verify_srt, hrun]

/-- Witness for C5: the no-fix validator on the spec's concrete overlapping
pair returns the spec findings and the unchanged document. -/
theorem verify_nofix_pure_and_spec_findings_witness :
    verify_srt ⟨[⟨1, some ⟨0, 0, 0, 0⟩, some ⟨0, 0, 5, 0⟩, [], some 1⟩,
                 ⟨2, some ⟨0, 0, 3, 0⟩, some ⟨0, 0, 8, 0⟩, [], some 4⟩], []⟩ false
      = .ok (specFindings none
               [⟨1, some ⟨0, 0, 0, 0⟩, some ⟨0, 0, 5, 0⟩, [], some 1⟩,
                ⟨2, some ⟨0, 0, 3, 0⟩, some ⟨0, 0, 8, 0⟩, [], some 4⟩],
             ⟨[⟨1, some ⟨0, 0, 0, 0⟩, some ⟨0, 0, 5, 0⟩, [], some 1⟩,
               ⟨2, some ⟨0, 0, 3, 0⟩, some ⟨0, 0, 8, 0⟩, [], some 4⟩], []⟩) :=
  verify_nofix_pure_and_spec_findings _ _ (by unfold allTimed; decide)


/-- Every validation walk over fully-timed entries succeeds (in both modes);
the invalid-range finding of each entry (computed from that entry's original
timestamps) is among the returned findings; and when no adjacent pair
overlaps, the returned entry list is the input list unchanged. -/
theorem verifyLoop_wf (fix : Bool) (es : List SRTEntry) : ∀ (prev : Option SRTEntry),
    allTimed es →
    (∀ p, prev = some p → p.start_time.isSome ∧ p.end_time.isSome) →
    ∃ errs out, verifyLoop fix prev es = .ok (errs, out) ∧
      (∀ e ∈ es, ∀ s en, e.start_time = some s → e.end_time = some en →
        SRTTime.ge s en = true → rangeMsg e ∈ errs) ∧
      (overlapFree (prev.toList ++ es) = true → out = prev.toList ++ es) := by
  induction es with
  | nil =>
    intro prev _ _
    exact ⟨[], prev.toList, by simp [verifyLoop], by simp, fun _ => by simp⟩
  | cons e rest ih =>
    intro prev hwf hp
    obtain ⟨hs0, he0⟩ := hwf e (by simp)
    obtain ⟨s, hs⟩ := Option.isSome_iff_exists.mp hs0
    obtain ⟨en, he⟩ := Option.isSome_iff_exists.mp he0
    have hwf' : allTimed rest := fun x hx => hwf x (by simp [hx])
    cases prev with
    | none =>
      obtain ⟨errs, out, heq, hrange, hof⟩ :=
        ih (some e) hwf' (fun p hpeq => by cases hpeq; exact ⟨hs0, he0⟩)
      refine ⟨(if SRTTime.ge s en then [rangeMsg e] else []) ++ errs, out, ?_, ?_, ?_⟩
      · simp [verifyLoop, pyGE, hs, he, heq]
      · intro x hx sx enx hsx henx hgex
        rcases List.mem_cons.mp hx with hxe | hxr
        · subst hxe
          rw [hs] at hsx; rw [he] at henx
          cases hsx; cases henx
          simp [hgex]
        · exact List.mem_append_right _ (hrange x hxr sx enx hsx henx hgex)
      · intro hfree
        simp only [Option.toList_none, List.nil_append] at hfree ⊢
        exact hof (by simpa using hfree)
    | some p =>
      obtain ⟨hps0, hpe0⟩ := hp p rfl
      obtain ⟨pe, hpe⟩ := Option.isSome_iff_exists.mp hpe0
      by_cases hlt : SRTTime.lt s pe = true
      · cases fix with
        | true =>
          obtain ⟨errs, out, heq, hrange, hof⟩ :=
            ih (some { e with start_time := some (pe.average s) }) hwf'
              (fun q hqeq => by cases hqeq; exact ⟨by simp, he0⟩)
          rw [he] at heq
          refine ⟨(if SRTTime.ge s en then [rangeMsg e] else []) ++ errs,
                  { p with end_time := some (pe.average s) } :: out, ?_, ?_, ?_⟩
          · simp [verifyLoop, pyGE, pyLT, hs, he, hpe, hlt, heq]
          · intro x hx sx enx hsx henx hgex
            rcases List.mem_cons.mp hx with hxe | hxr
            · subst hxe
              rw [hs] at hsx; rw [he] at henx
              cases hsx; cases henx
              simp [hgex]
            · exact List.mem_append_right _ (hrange x hxr sx enx hsx henx hgex)
          · intro hfree
            exfalso
            simp only [Option.toList_some, List.cons_append, overlapFree, hs, hpe,
              Bool.and_eq_true, Bool.not_eq_true'] at hfree
            exact absurd hlt (by simp [hfree.1])
        | false =>
          obtain ⟨errs, out, heq, hrange, hof⟩ :=
            ih (some e) hwf' (fun q hqeq => by cases hqeq; exact ⟨hs0, he0⟩)
          refine ⟨(if SRTTime.ge s en then [rangeMsg e] else []) ++ [overlapMsg e p] ++ errs,
                  p :: out, ?_, ?_, ?_⟩
          · simp [verifyLoop, pyGE, pyLT, hs, he, hpe, hlt, heq]
          · intro x hx sx enx hsx henx hgex
            rcases List.mem_cons.mp hx with hxe | hxr
            · subst hxe
              rw [hs] at hsx; rw [he] at henx
              cases hsx; cases henx
              simp [hgex]
            · exact List.mem_append_right _ (hrange x hxr sx enx hsx henx hgex)
          · intro hfree
            exfalso
            simp only [Option.toList_some, List.cons_append, overlapFree, hs, hpe,
              Bool.and_eq_true, Bool.not_eq_true'] at hfree
            exact absurd hlt (by simp [hfree.1])
      · simp only [Bool.not_eq_true] at hlt
        obtain ⟨errs, out, heq, hrange, hof⟩ :=
          ih (some e) hwf' (fun q hqeq => by cases hqeq; exact ⟨hs0, he0⟩)
        refine ⟨(if SRTTime.ge s en then [rangeMsg e] else []) ++ errs,
                p :: out, ?_, ?_, ?_⟩
        · simp [verifyLoop, pyGE, pyLT, hs, he, hpe, hlt, heq]
        · intro x hx sx enx hsx henx hgex
          rcases List.mem_cons.mp hx with hxe | hxr
          · subst hxe
            rw [hs] at hsx; rw [he] at henx
            cases hsx; cases henx
            simp [hgex]
          · exact List.mem_append_right _ (hrange x hxr sx enx hsx henx hgex)
        · intro hfree
          simp only [Option.toList_some, List.cons_append, overlapFree, hs, hpe,
            Bool.and_eq_true, Bool.not_eq_true'] at hfree
          have hout := hof (by simpa using hfree.2)
          simp only [Option.toList_some, List.cons_append] at hout
          rw [hout]
          simp

/-- C6: for every fully-timed document and either fix setting, validate
succeeds and emits the invalid-range finding "Entry {id} on line {line} has
invalid time range: {start} - {end}." for every entry whose start is greater
than or equal to its end under the timestamp total order (equality
included), and the invalid-range check never mutates: on a document with no
adjacent overlap (so the only mutating check, overlap repair, never fires)
the entries come back unchanged even in fix mode. -/
theorem verify_invalid_range_emitted_no_mutation (es : List SRTEntry)
    (ws : List String) (fix : Bool) (h : allTimed es) :
    ∃ errs es2, verify_srt ⟨es, ws⟩ fix = .ok (errs, ⟨es2, ws⟩) ∧
      (∀ e ∈ es, ∀ s en, e.start_time = some s → e.end_time = some en →
        SRTTime.ge s en = true → rangeMsg e ∈ errs) ∧
      (overlapFree es = true → es2 = es) := by
  obtain ⟨errs, out, heq, hrange, hof⟩ := verifyLoop_wf fix es none h (fun p hp => by cases hp)
  refine ⟨errs, out, by simp [verify_srt, heq], hrange, fun hfree => ?_⟩
  simpa using hof (by simpa using hfree)

/-- Witness for C6: the spec's degenerate entry with equal start and end,
validated in fix mode. -/
theorem verify_invalid_range_emitted_no_mutation_witness :
    ∃ errs es2,
      verify_srt ⟨[⟨1, some ⟨0, 0, 5, 0⟩, some ⟨0, 0, 5, 0⟩, [], some 1⟩], []⟩ true
        = .ok (errs, ⟨es2, []⟩) ∧
      (∀ e ∈ [(⟨1, some ⟨0, 0, 5, 0⟩, some ⟨0, 0, 5, 0⟩, [], some 1⟩ : SRTEntry)],
        ∀ s en, e.start_time = some s → e.end_time = some en →
        SRTTime.ge s en = true → rangeMsg e ∈ errs) ∧
      (overlapFree [⟨1, some ⟨0, 0, 5, 0⟩, some ⟨0, 0, 5, 0⟩, [], some 1⟩] = true →
        es2 = [⟨1, some ⟨0, 0, 5, 0⟩, some ⟨0, 0, 5, 0⟩, [], some 1⟩]) :=
  verify_invalid_range_emitted_no_mutation _ _ true (by unfold allTimed; decide)


/-- C10: in the text-line state only the ASCII token "-->" is fatal: any run
of non-blank text lines each free of "-->" (whether or not they contain the
Unicode arrow) is consumed by appending each line, trimmed, to the entry's
text, with no error and no warning (textLoop produces none), in every mode;
concretely, parsing an entry whose text lines are "  A → B  " and "xy"
succeeds under all four flag combinations with text ["A → B", "xy"] and an
empty warning list, even though the same glyph at the ID position triggers
missing-ID handling. -/
theorem text_line_unicode_arrow_kept :
    (∀ (pre post : List String) (i : Nat),
      (∀ l ∈ pre, pyStrip l ≠ ("") ∧ containsSub ("→") (pyStrip l) = true ∧
        containsSub ("-->") (pyStrip l) = false) →
      textLoop (pre ++ post) i =
        (textLoop post (i + pre.length)).map
          (fun r => (pre.map pyStrip ++ r.1, pre.length + r.2))) ∧
    (∀ renumber fix_errors : Bool,
      SRTFile.parse ("1\n00:00:01,000 --> 00:00:02,000\n  A → B  \nxy") renumber fix_errors
        = .ok ⟨[⟨1, some ⟨0, 0, 1, 0⟩, some ⟨0, 0, 2, 0⟩, [("A → B"), ("xy")], some 1⟩], []⟩) := by
  constructor
  · intro pre
    induction pre with
    | nil =>
      intro post i _
      cases h : textLoop post i <;> simp [h, Except.map]
    | cons l pre ih =>
      intro post i hp
      obtain ⟨hne, _, hnoarrow⟩ := hp l (by simp)
      have hp' : ∀ x ∈ pre, pyStrip x ≠ ("") ∧ containsSub ("→") (pyStrip x) = true ∧
          containsSub ("-->") (pyStrip x) = false := fun x hx => hp x (by simp [hx])
      have hrec := ih post (i + 1) hp'
      have harith : i + (pre.length + 1) = i + 1 + pre.length := by omega
      simp only [List.cons_append, textLoop, hne, hnoarrow, Bool.false_eq_true, ite_false,
        List.append_eq, hrec, List.length_cons, List.map_cons, harith]
      cases h : textLoop post (i + 1 + pre.length) with
      | error e => simp [h, Except.map]
      | ok r =>
        simp [h, Except.map]
        omega
  · intro renumber fix_errors
    cases renumber <;> cases fix_errors <;> decide

/-- Witness for C10: the general text-line statement applied to the single
text line "a → b". -/
theorem text_line_unicode_arrow_kept_witness :
    (∀ l ∈ [("a → b")], pyStrip l ≠ ("") ∧ containsSub ("→") (pyStrip l) = true ∧
      containsSub ("-->") (pyStrip l) = false) ∧
    textLoop ([("a → b")] ++ []) 0 =
      (textLoop [] (0 + [("a → b")].length)).map
        (fun r => ([("a → b")].map pyStrip ++ r.1, [("a → b")].length + r.2)) :=
  ⟨by decide, text_line_unicode_arrow_kept.1 [("a → b")] [] 0 (by decide)⟩

theorem digitChar_props : ∀ d, d < 10 →
    digitChar d ≠ ':' ∧ digitChar d ≠ ',' ∧ digitChar d ≠ '-' ∧ digitChar d ≠ '+' ∧
    wsChar (digitChar d) = false ∧ digVal (digitChar d) = some d := by decide

theorem natToCharsAux_mem : ∀ (fuel n : Nat), n < fuel → ∀ c ∈ natToCharsAux fuel n,
    ∃ d, d < 10 ∧ c = digitChar d := by
  intro fuel
  induction fuel with
  | zero => intro n h; omega
  | succ fuel ih =>
    intro n h c hc
    by_cases h10 : n < 10
    · simp [natToCharsAux, h10] at hc
      exact ⟨n, h10, hc⟩
    · simp [natToCharsAux, h10] at hc
      rcases hc with hc | hc
      · have hdiv : n / 10 < fuel := by
          have h1 : n / 10 < n := Nat.div_lt_self (by omega) (by omega)
          omega
        exact ih (n / 10) hdiv c hc
      · exact ⟨n % 10, Nat.mod_lt _ (by omega), hc⟩

theorem digitsValAux_append (xs ys : List Char) : ∀ acc,
    digitsValAux acc (xs ++ ys) =
      match digitsValAux acc xs with
      | none => none
      | some v => digitsValAux v ys := by
  induction xs with
  | nil => intro acc; simp [digitsValAux]
  | cons c cs ih =>
    intro acc
    simp only [List.cons_append, digitsValAux]
    cases digVal c with
    | none => rfl
    | some d => exact ih _

theorem digitsValAux_natToCharsAux : ∀ (fuel n : Nat), n < fuel → ∀ acc,
    digitsValAux acc (natToCharsAux fuel n)
      = some (acc * 10 ^ (natToCharsAux fuel n).length + n) := by
  intro fuel
  induction fuel with
  | zero => intro n h; omega
  | succ fuel ih =>
    intro n h acc
    by_cases h10 : n < 10
    · simp [natToCharsAux, h10, digitsValAux, (digitChar_props n h10).2.2.2.2.2]
    · have hdiv : n / 10 < fuel := by
        have h1 : n / 10 < n := Nat.div_lt_self (by omega) (by omega)
        omega
      simp only [natToCharsAux, h10, ite_false]
      rw [digitsValAux_append, ih (n / 10) hdiv acc]
      simp only [digitsValAux, (digitChar_props (n % 10) (Nat.mod_lt _ (by omega))).2.2.2.2.2,
        List.length_append, List.length_cons, List.length_nil]
      have hmod := Nat.div_add_mod n 10
      have hpow : 10 ^ ((natToCharsAux fuel (n / 10)).length + (0 + 1))
          = 10 ^ (natToCharsAux fuel (n / 10)).length * 10 := by
        rw [Nat.add_comm 0 1]
        ring
      rw [hpow]
      congr 1
      nlinarith [hmod]

theorem natToCharsAux_ne_nil : ∀ (fuel n : Nat), n < fuel → natToCharsAux fuel n ≠ [] := by
  intro fuel n h
  cases fuel with
  | zero => omega
  | succ fuel => by_cases h10 : n < 10 <;> simp [natToCharsAux, h10]

theorem digitsVal_of_ne_nil (l : List Char) (h : l ≠ []) : digitsVal l = digitsValAux 0 l := by
  cases l with
  | nil => exact absurd rfl h
  | cons c cs => rfl

theorem natToChars_digitsVal (n : Nat) : digitsVal (natToChars n) = some n := by
  have hne := natToCharsAux_ne_nil (n + 1) n (by omega)
  have hv := digitsValAux_natToCharsAux (n + 1) n (by omega) 0
  unfold natToChars
  rw [digitsVal_of_ne_nil _ hne, hv]
  simp

theorem natToCharsAux_length_le : ∀ (k fuel n : Nat), n < fuel → n < 10 ^ k → 1 ≤ k →
    (natToCharsAux fuel n).length ≤ k := by
  intro k
  induction k with
  | zero => intro fuel n _ _ h; omega
  | succ k ih =>
    intro fuel n hf hp _
    cases fuel with
    | zero => omega
    | succ fuel =>
      by_cases h10 : n < 10
      · simp [natToCharsAux, h10]
      · simp only [natToCharsAux, h10, ite_false, List.length_append, List.length_cons,
          List.length_nil]
        have hk : 1 ≤ k := by
          by_contra hk0
          have hk1 : k = 0 := by omega
          subst hk1
          simp at hp
          omega
        have hdivf : n / 10 < fuel := by
          have h1 : n / 10 < n := Nat.div_lt_self (by omega) (by omega)
          omega
        have hdivp : n / 10 < 10 ^ k := by
          rw [Nat.div_lt_iff_lt_mul (by omega)]
          calc n < 10 ^ (k + 1) := hp
            _ = 10 ^ k * 10 := by ring
        have := ih fuel (n / 10) hdivf hdivp hk
        omega

theorem digitsValAux_replicate_zero (ds : List Char) : ∀ k,
    digitsValAux 0 (List.replicate k '0' ++ ds) = digitsValAux 0 ds := by
  intro k
  induction k with
  | zero => simp
  | succ k ih =>
    rw [List.replicate_succ, List.cons_append]
    simpa [digitsValAux, digVal] using ih

theorem padZeros_ne_nil (w n : Nat) : padZeros w (natToChars n) ≠ [] := by
  unfold padZeros
  intro hnil
  rcases List.append_eq_nil.mp hnil with ⟨_, h2⟩
  exact natToCharsAux_ne_nil (n + 1) n (by omega) h2

theorem digitsVal_padZeros (w n : Nat) : digitsVal (padZeros w (natToChars n)) = some n := by
  rw [digitsVal_of_ne_nil _ (padZeros_ne_nil w n)]
  unfold padZeros
  rw [digitsValAux_replicate_zero]
  rw [← digitsVal_of_ne_nil _ (by unfold natToChars; exact natToCharsAux_ne_nil (n + 1) n (by omega))]
  exact natToChars_digitsVal n

theorem padZeros_mem (w n : Nat) : ∀ c ∈ padZeros w (natToChars n),
    ∃ d, d < 10 ∧ c = digitChar d := by
  intro c hc
  unfold padZeros at hc
  rcases List.mem_append.mp hc with hc | hc
  · exact ⟨0, by omega, List.eq_of_mem_replicate hc⟩
  · exact natToCharsAux_mem (n + 1) n (by omega) c hc

theorem padZeros_length (w : Nat) (ds : List Char) (h : ds.length ≤ w) :
    (padZeros w ds).length = w := by
  unfold padZeros
  simp
  omega

theorem dropWhile_no_ws (l : List Char) (h : ∀ c ∈ l, wsChar c = false) :
    l.dropWhile wsChar = l := by
  cases l with
  | nil => rfl
  | cons c cs => simp [List.dropWhile_cons, h c (by simp)]

theorem stripChars_no_ws (l : List Char) (h : ∀ c ∈ l, wsChar c = false) :
    stripChars l = l := by
  unfold stripChars
  rw [dropWhile_no_ws l h]
  rw [dropWhile_no_ws l.reverse (fun c hc => h c (List.mem_reverse.mp hc))]
  exact List.reverse_reverse l

theorem splitChL_ne_nil (sep : Char) (l : List Char) : splitChL sep l ≠ [] := by
  induction l with
  | nil => simp [splitChL]
  | cons c cs ih =>
    simp only [splitChL]
    cases h : splitChL sep cs with
    | nil => simp
    | cons a b => by_cases hc : c = sep <;> simp [hc]

theorem splitChL_no_sep (sep : Char) (l : List Char) (h : ∀ c ∈ l, c ≠ sep) :
    splitChL sep l = [l] := by
  induction l with
  | nil => rfl
  | cons c cs ih =>
    have hih := ih (fun x hx => h x (by simp [hx]))
    simp only [splitChL, hih]
    simp [h c (by simp)]

theorem splitChL_append (sep : Char) (xs ys : List Char) (h : ∀ c ∈ xs, c ≠ sep) :
    splitChL sep (xs ++ sep :: ys) = xs :: splitChL sep ys := by
  induction xs with
  | nil =>
    simp only [List.nil_append, splitChL]
    cases hy : splitChL sep ys with
    | nil => exact absurd hy (splitChL_ne_nil sep ys)
    | cons a b => simp
  | cons c cs ih =>
    have hih := ih (fun x hx => h x (by simp [hx]))
    simp only [List.cons_append, splitChL, List.append_eq]
    rw [hih]
    simp [h c (by simp)]

theorem pyInt_digits (l : List Char) (n : Nat)
    (hd : ∀ c ∈ l, ∃ d, d < 10 ∧ c = digitChar d)
    (hv : digitsVal l = some n) :
    pyInt ⟨l⟩ = some (n : Int) := by
  have hws : ∀ c ∈ l, wsChar c = false := by
    intro c hc
    obtain ⟨d, hd10, rfl⟩ := hd c hc
    exact (digitChar_props d hd10).2.2.2.2.1
  have hstrip : stripChars l = l := stripChars_no_ws l hws
  cases l with
  | nil => simp [digitsVal] at hv
  | cons c cs =>
    obtain ⟨d, hd10, hcd⟩ := hd c (by simp)
    have props := digitChar_props d hd10
    subst hcd
    simp only [pyInt]
    rw [hstrip]
    simp [props.2.2.1, props.2.2.2.1, hv]

theorem zfill_natCast (w n : Nat) : zfillL w ((n : Nat) : Int) = padZeros w (natToChars n) := by
  simp [zfillL]

theorem parse_render_ok (h m s ms : Nat) (hms : ms < 1000) :
    SRTTime.parse ((SRTTime.mk (h : Int) (m : Int) (s : Int) (ms : Int)).render)
      = .ok (SRTTime.mk (h : Int) (m : Int) (s : Int) (ms : Int)) := by
  have hrender : (SRTTime.mk (h : Int) (m : Int) (s : Int) (ms : Int)).render
      = ⟨padZeros 2 (natToChars h) ++ ':' :: (padZeros 2 (natToChars m) ++ ':' ::
          (padZeros 2 (natToChars s) ++ ',' :: padZeros 3 (natToChars ms)))⟩ := by
    simp [SRTTime.render, zfill_natCast]
  have hAcolon : ∀ c ∈ padZeros 2 (natToChars h), c ≠ ':' := by
    intro c hc
    obtain ⟨d, h10, rfl⟩ := padZeros_mem 2 h c hc
    exact (digitChar_props d h10).1
  have hBcolon : ∀ c ∈ padZeros 2 (natToChars m), c ≠ ':' := by
    intro c hc
    obtain ⟨d, h10, rfl⟩ := padZeros_mem 2 m c hc
    exact (digitChar_props d h10).1
  have hCcolon : ∀ c ∈ padZeros 2 (natToChars s) ++ ',' :: padZeros 3 (natToChars ms), c ≠ ':' := by
    intro c hc
    rcases List.mem_append.mp hc with hc | hc
    · obtain ⟨d, h10, rfl⟩ := padZeros_mem 2 s c hc
      exact (digitChar_props d h10).1
    · rcases List.mem_cons.mp hc with rfl | hc
      · decide
      · obtain ⟨d, h10, rfl⟩ := padZeros_mem 3 ms c hc
        exact (digitChar_props d h10).1
  have hScomma : ∀ c ∈ padZeros 2 (natToChars s), c ≠ ',' := by
    intro c hc
    obtain ⟨d, h10, rfl⟩ := padZeros_mem 2 s c hc
    exact (digitChar_props d h10).2.1
  have hMcomma : ∀ c ∈ padZeros 3 (natToChars ms), c ≠ ',' := by
    intro c hc
    obtain ⟨d, h10, rfl⟩ := padZeros_mem 3 ms c hc
    exact (digitChar_props d h10).2.1
  have hsplit1 : splitc ':'
      ⟨padZeros 2 (natToChars h) ++ ':' :: (padZeros 2 (natToChars m) ++ ':' ::
        (padZeros 2 (natToChars s) ++ ',' :: padZeros 3 (natToChars ms)))⟩
      = [⟨padZeros 2 (natToChars h)⟩, ⟨padZeros 2 (natToChars m)⟩,
         ⟨padZeros 2 (natToChars s) ++ ',' :: padZeros 3 (natToChars ms)⟩] := by
    unfold splitc
    rw [show (String.mk (padZeros 2 (natToChars h) ++ ':' :: (padZeros 2 (natToChars m) ++ ':' ::
      (padZeros 2 (natToChars s) ++ ',' :: padZeros 3 (natToChars ms))))).data
      = padZeros 2 (natToChars h) ++ ':' :: (padZeros 2 (natToChars m) ++ ':' ::
        (padZeros 2 (natToChars s) ++ ',' :: padZeros 3 (natToChars ms))) from rfl]
    rw [splitChL_append ':' _ _ hAcolon, splitChL_append ':' _ _ hBcolon,
      splitChL_no_sep ':' _ hCcolon]
    rfl
  have hsplit2 : splitc ','
      ⟨padZeros 2 (natToChars s) ++ ',' :: padZeros 3 (natToChars ms)⟩
      = [⟨padZeros 2 (natToChars s)⟩, ⟨padZeros 3 (natToChars ms)⟩] := by
    unfold splitc
    rw [show (String.mk (padZeros 2 (natToChars s) ++ ',' :: padZeros 3 (natToChars ms))).data
      = padZeros 2 (natToChars s) ++ ',' :: padZeros 3 (natToChars ms) from rfl]
    rw [splitChL_append ',' _ _ hScomma, splitChL_no_sep ',' _ hMcomma]
    rfl
  have hMlen : (padZeros 3 (natToChars ms)).length = 3 := by
    apply padZeros_length
    unfold natToChars
    apply natToCharsAux_length_le 3 (ms + 1) ms (by omega)
    · have h1000 : (10 : Nat) ^ 3 = 1000 := by norm_num
      omega
    · omega
  have hljust : ljustL (padZeros 3 (natToChars ms)) 3 '0' = padZeros 3 (natToChars ms) := by
    unfold ljustL
    rw [hMlen]
    simp
  have htake : (padZeros 3 (natToChars ms)).take 3 = padZeros 3 (natToChars ms) :=
    List.take_of_length_le (by rw [hMlen])
  have hpA : pyInt ⟨padZeros 2 (natToChars h)⟩ = some (h : Int) :=
    pyInt_digits _ _ (padZeros_mem 2 h) (digitsVal_padZeros 2 h)
  have hpB : pyInt ⟨padZeros 2 (natToChars m)⟩ = some (m : Int) :=
    pyInt_digits _ _ (padZeros_mem 2 m) (digitsVal_padZeros 2 m)
  have hpS : pyInt ⟨padZeros 2 (natToChars s)⟩ = some (s : Int) :=
    pyInt_digits _ _ (padZeros_mem 2 s) (digitsVal_padZeros 2 s)
  have hpM : pyInt ⟨padZeros 3 (natToChars ms)⟩ = some (ms : Int) :=
    pyInt_digits _ _ (padZeros_mem 3 ms) (digitsVal_padZeros 3 ms)
  rw [hrender]
  simp only [SRTTime.parse, hsplit1, List.length_cons, List.length_nil, List.getD_cons_zero,
    List.getD_cons_succ, hpA, hpB, hsplit2, hpS]
  norm_num
  simp only [hljust, htake, hpM]

/-- C9: timestamp rendering round-trips through parsing: for every
(h,m,s,ms) with h in 0..23, m and s in 0..59 and ms in 0..999, parsing the
rendered timestamp recovers the same timestamp, so rendering, parsing and
rendering again yields the first rendering. -/
theorem srttime_render_parse_round_trip :
    ∀ h m s ms : Nat, h < 24 → m < 60 → s < 60 → ms < 1000 →
      SRTTime.parse ((SRTTime.mk (h : Int) (m : Int) (s : Int) (ms : Int)).render)
        = .ok (SRTTime.mk (h : Int) (m : Int) (s : Int) (ms : Int)) ∧
      ∃ t2, SRTTime.parse ((SRTTime.mk (h : Int) (m : Int) (s : Int) (ms : Int)).render)
          = .ok t2 ∧
        t2.render = (SRTTime.mk (h : Int) (m : Int) (s : Int) (ms : Int)).render := by
  intro h m s ms _ _ _ hms
  exact ⟨parse_render_ok h m s ms hms, _, parse_render_ok h m s ms hms, rfl⟩

/-- Witness for C9: the round-trip statement applied at 23:59:59,999. -/
theorem srttime_render_parse_round_trip_witness :
    SRTTime.parse ((SRTTime.mk ((23 : Nat) : Int) ((59 : Nat) : Int) ((59 : Nat) : Int)
        ((999 : Nat) : Int)).render)
      = .ok (SRTTime.mk ((23 : Nat) : Int) ((59 : Nat) : Int) ((59 : Nat) : Int)
        ((999 : Nat) : Int)) ∧
    ∃ t2, SRTTime.parse ((SRTTime.mk ((23 : Nat) : Int) ((59 : Nat) : Int) ((59 : Nat) : Int)
        ((999 : Nat) : Int)).render) = .ok t2 ∧
      t2.render = (SRTTime.mk ((23 : Nat) : Int) ((59 : Nat) : Int) ((59 : Nat) : Int)
        ((999 : Nat) : Int)).render :=
  srttime_render_parse_round_trip 23 59 59 999 (by decide) (by decide) (by decide) (by decide)
